import Mathlib

/-
  Verification development for the m3u8-crawler repository.

  The definitions below are a shallow embedding of the capture / reassembly
  pipeline, translated from the repository sources:
    - src/utils.ts        (formatDate)
    - src/files.ts        (runFFmpeg, deleteTmpFiles, generateFileList, removeEmptyFiles)
    - src/preview.ts      (the second `Crawler` class, lines 406-696: onRequest,
                           concatVideos, handleTab, launch)
    - src/index.ts        (the first `Crawler` class, lines 12-237: concatVideos,
                           launch, the idle round loop)
    - src/scraper.ts      (findPerson)

  JavaScript numbers are modelled by `JSNumber` (NaN, an infinity, or a
  finite value in canonical decimal-scientific form); byte buffers as
  `List Nat`; the filesystem as explicit lists of file and directory paths;
  thrown exceptions as `Except` values or explicit branch outcomes.
-/

/-! ### Dates: `formatDate` from src/utils.ts -/

/-- A JavaScript `Date`, decomposed the way src/utils.ts reads it:
`month` is the `getMonth()` value (0-11); `ms` are the milliseconds, which
`formatDate` discards (seconds granularity). -/
structure JSDate where
  year : Nat
  month : Nat
  day : Nat
  hour : Nat
  minute : Nat
  second : Nat
  ms : Nat
deriving DecidableEq, Repr

/-- The `pad` helper inside `formatDate` (src/utils.ts line 5):
`("0" + n).slice(-2)`, i.e. the last two characters of `"0" + n`. -/
def padTwo (n : Nat) : String :=
  let s := "0" ++ toString n
  String.mk (s.data.drop (s.data.length - 2))

/-- `formatDate` from src/utils.ts lines 4-11:
`{year}-{pad(month+1)}-{pad(day)}_{pad(hours)}-{pad(minutes)}-{pad(seconds)}`. -/
def formatDate (d : JSDate) : String :=
  toString d.year ++ "-" ++ padTwo (d.month + 1) ++ "-" ++ padTwo d.day ++ "_" ++
    padTwo d.hour ++ "-" ++ padTwo d.minute ++ "-" ++ padTwo d.second

/-! ### URL helpers used by `onRequest` (src/preview.ts lines 431-447) -/

/-- `url.endsWith(".ts")` (src/preview.ts line 431), specialised to the one
suffix the code ever tests: the reversed character list starts with `s`, `t`, `.`. -/
def jsEndsWithTs (s : String) : Bool :=
  match s.data.reverse with
  | 's' :: 't' :: '.' :: _ => true
  | _ => false

/-- `new URL(url).pathname.split("/").pop()` (src/preview.ts lines 441-443) for a
URL without query/fragment: the characters after the last `/` (the whole string
when there is no `/`). -/
def lastComponent (s : String) : String :=
  String.mk ((s.data.reverse.takeWhile (fun c => c ≠ '/')).reverse)

/-- Index of the last occurrence of `c` in `l`, JS `lastIndexOf` style
(`none` for JS's `-1`). -/
def lastIdxOf (l : List Char) (c : Char) : Option Nat :=
  match l.reverse.findIdx? (fun x => x = c) with
  | none => none
  | some j => some (l.length - 1 - j)

/-- `url.slice(url.lastIndexOf("_") + 1, url.lastIndexOf("."))`
(src/preview.ts lines 446-448).  `lastIndexOf("_")` is `-1` when absent, so the
start index becomes `0`; JS `slice` returns `""` when the end is not past the
start. -/
def seqSubstring (url : String) : String :=
  let start := match lastIdxOf url.data '_' with
    | some i => i + 1
    | none => 0
  let stop := match lastIdxOf url.data '.' with
    | some i => i
    | none => 0
  String.mk ((url.data.drop start).take (stop - start))

/-- A JavaScript number value, as `Number()` produces it on strings: `NaN`,
a finite value, or an infinity.  A finite value is represented exactly in
canonical decimal-scientific form `mantissa * 10 ^ exp10` with `mantissa`
not divisible by 10 (and `(0, 0)` for zero); this form is unique per value,
so structural equality is value equality — the SameValueZero equality the
JS `Set` uses (`-0` normalises to `(0, 0)`).  Float64 rounding is not
modelled: two numerals that differ as exact decimals but round to the same
double (17+ significant digits) compare unequal here; no claim depends on
such keys. -/
inductive JSNumber where
  | nan
  | finite (mantissa : Int) (exp10 : Int)
  | posInf
  | negInf
deriving DecidableEq, Repr

/-- ASCII whitespace trimmed by JS `Number()` (the Unicode-only space
characters cannot occur in a `request.url()` string). -/
def jsWhitespace (c : Char) : Bool :=
  c == ' ' || c == '\t' || c == '\n' || c == '\r' || c == '\x0b' || c == '\x0c'

/-- Value of a decimal digit string. -/
def decDigitsVal (l : List Char) : Nat :=
  l.foldl (fun acc c => acc * 10 + (c.toNat - 48)) 0

def jsIsHexDigit (c : Char) : Bool :=
  c.isDigit || (97 ≤ c.toNat && c.toNat ≤ 102) || (65 ≤ c.toNat && c.toNat ≤ 70)

def hexDigitVal (c : Char) : Nat :=
  if c.isDigit then c.toNat - 48
  else if 97 ≤ c.toNat then c.toNat - 87
  else c.toNat - 55

def hexDigitsVal (l : List Char) : Nat :=
  l.foldl (fun acc c => acc * 16 + hexDigitVal c) 0

def octDigitsVal (l : List Char) : Nat :=
  l.foldl (fun acc c => acc * 8 + (c.toNat - 48)) 0

def binDigitsVal (l : List Char) : Nat :=
  l.foldl (fun acc c => acc * 2 + (c.toNat - 48)) 0

/-- Strip factors of 10 from a non-zero mantissa into the exponent.  The
fuel only bounds the recursion; `|m|` strips always suffice, since each
strip divides the mantissa by 10. -/
def stripTens : Nat → Int → Int → Int × Int
  | 0, m, e => (m, e)
  | fuel + 1, m, e => if m % 10 = 0 then stripTens fuel (m / 10) (e + 1) else (m, e)

/-- The canonical `JSNumber.finite` with value `m * 10 ^ e`. -/
def mkFinite (m e : Int) : JSNumber :=
  if m = 0 then JSNumber.finite 0 0
  else
    let p := stripTens m.natAbs m e
    JSNumber.finite p.1 p.2

/-- `ExponentPart` digits: an optional sign, then non-empty decimal
digits. -/
def parseExponentDigits (l : List Char) : Option Int :=
  match l with
  | '+' :: rest =>
    if !rest.isEmpty && rest.all (fun c => c.isDigit) then some (decDigitsVal rest) else none
  | '-' :: rest =>
    if !rest.isEmpty && rest.all (fun c => c.isDigit) then some (-(decDigitsVal rest : Int))
    else none
  | _ =>
    if !l.isEmpty && l.all (fun c => c.isDigit) then some (decDigitsVal l) else none

/-- Decimal mantissa (ES `DecimalDigits ['.' DecimalDigits?]` or
`'.' DecimalDigits`): the digit string's value together with the fraction
length. -/
def parseDecimalMantissa (l : List Char) : Option (Nat × Nat) :=
  match l.findIdx? (fun c => c == '.') with
  | none =>
    if !l.isEmpty && l.all (fun c => c.isDigit) then some (decDigitsVal l, 0) else none
  | some i =>
    let ip := l.take i
    let fp := l.drop (i + 1)
    if (fp.findIdx? (fun c => c == '.')).isSome then none
    else if ip.isEmpty && fp.isEmpty then none
    else if ip.all (fun c => c.isDigit) && fp.all (fun c => c.isDigit) then
      some (decDigitsVal (ip ++ fp), fp.length)
    else none

/-- ES `StrDecimalLiteral` after its sign: `Infinity`, or a decimal
mantissa with an optional exponent. -/
def parseUnsignedDecimal (sign : Int) (l : List Char) : JSNumber :=
  if l = "Infinity".data then
    (if sign = 1 then JSNumber.posInf else JSNumber.negInf)
  else
    match l.findIdx? (fun c => c == 'e' || c == 'E') with
    | none =>
      match parseDecimalMantissa l with
      | none => JSNumber.nan
      | some (v, fl) => mkFinite (sign * (v : Int)) (-(fl : Int))
    | some i =>
      match parseDecimalMantissa (l.take i), parseExponentDigits (l.drop (i + 1)) with
      | some (v, fl), some k => mkFinite (sign * (v : Int)) (k - (fl : Int))
      | _, _ => JSNumber.nan

/-- ES `NonDecimalIntegerLiteral`: `0x`/`0o`/`0b` (either case) with
non-empty digits; no sign, no fraction, no exponent. -/
def parseNonDecimal (l : List Char) : Option Nat :=
  match l with
  | '0' :: c :: rest =>
    if (c == 'x' || c == 'X') && !rest.isEmpty && rest.all jsIsHexDigit then
      some (hexDigitsVal rest)
    else if (c == 'o' || c == 'O') && !rest.isEmpty &&
        rest.all (fun d => 48 ≤ d.toNat && d.toNat ≤ 55) then
      some (octDigitsVal rest)
    else if (c == 'b' || c == 'B') && !rest.isEmpty &&
        rest.all (fun d => d == '0' || d == '1') then
      some (binDigitsVal rest)
    else none
  | _ => none

/-- JS `Number(str)` (ES `ToNumber` applied to a string): trim whitespace;
the empty string is `+0`; then a non-decimal integer literal, or a signed
decimal literal (`Infinity`, or digits with optional fraction and
exponent); anything else is `NaN`. -/
def jsNumber (s : String) : JSNumber :=
  let t := ((s.data.dropWhile jsWhitespace).reverse.dropWhile jsWhitespace).reverse
  if t.isEmpty then JSNumber.finite 0 0
  else
    match parseNonDecimal t with
    | some n => mkFinite (n : Int) 0
    | none =>
      match t with
      | '+' :: rest => parseUnsignedDecimal 1 rest
      | '-' :: rest => parseUnsignedDecimal (-1) rest
      | _ => parseUnsignedDecimal 1 t

/-- The dedup key `Number(url.slice(url.lastIndexOf("_") + 1, url.lastIndexOf(".")))`
computed by `onRequest` (src/preview.ts lines 446-448); `JSNumber.nan`
models `NaN`. -/
def seqKeyOf (url : String) : JSNumber :=
  jsNumber (seqSubstring url)

example : jsNumber "31" = JSNumber.finite 31 0 := by decide
example : jsNumber "" = JSNumber.finite 0 0 := by decide
example : jsNumber "1.2" = JSNumber.finite 12 (-1) := by decide
example : jsNumber "1.2" ≠ jsNumber "3.4" := by decide
example : jsNumber "12e3" = jsNumber "12000" := by decide
example : jsNumber "1.20" = jsNumber "1.2" := by decide
example : jsNumber "0x14" = jsNumber "20" := by decide
example : jsNumber "-0" = jsNumber "0" := by decide
example : jsNumber "Infinity" = JSNumber.posInf := by decide
example : jsNumber "-Infinity" = JSNumber.negInf := by decide
example : jsNumber "1.2.3" = JSNumber.nan := by decide
example : jsNumber "1e" = JSNumber.nan := by decide
example : jsNumber "abc" = JSNumber.nan := by decide

/-! ### Segment interception: `Crawler.onRequest` (src/preview.ts lines 425-467) -/

/-- One file written into the session directory: its name inside the directory,
the dedup key it was stored under, and the payload bytes. -/
structure SegFile where
  name : String
  seqKey : JSNumber
  bytes : List Nat
deriving DecidableEq, Repr

/-- One intercepted request event: its URL, the outcome of `fetch`
(`none` when the fetch rejected, which the surrounding try/catch swallows,
src/preview.ts lines 460-464), and the wall-clock time of the handler run. -/
structure FetchEvent where
  url : String
  result : Option (List Nat)
  time : JSDate
deriving DecidableEq, Repr

/-- The per-lane session state touched by `onRequest`: the dedup set
`fileNumbers` (a JS `Set<number>`, SameValueZero equality, so
`JSNumber.nan` matches itself), the files written to the session directory
in write order, and the lane's `HAD_NEW_REQUEST` flag. -/
structure LaneSession where
  fileNumbers : List JSNumber
  files : List SegFile
  hadNewRequest : Bool
deriving DecidableEq, Repr

def emptySession : LaneSession :=
  { fileNumbers := [], files := [], hadNewRequest := false }

/-- `Crawler.onRequest` from src/preview.ts lines 425-467, as a state
transition on the lane session.  Filters to `.ts` URLs; a rejected fetch is
caught and changes nothing; a zero-byte payload returns before anything is
recorded (lines 436-439); a key already in the dedup set returns before the
write (lines 450-453); otherwise the payload is written under
`formatDate(now) + lastComponent(url)` and the key and activity flag are set. -/
def onRequest (s : LaneSession) (e : FetchEvent) : LaneSession :=
  if jsEndsWithTs e.url then
    match e.result with
    | none => s
    | some buffer =>
      if buffer.length = 0 then s
      else
        let urlPath := formatDate e.time ++ lastComponent e.url
        let fileNumber := seqKeyOf e.url
        if s.fileNumbers.contains fileNumber then s
        else
          { fileNumbers := s.fileNumbers ++ [fileNumber],
            files := s.files ++ [{ name := urlPath, seqKey := fileNumber, bytes := buffer }],
            hadNewRequest := true }
  else s

/-- A capture session: `onRequest` folded over the intercepted events from a
given starting state. -/
def runFrom (s : LaneSession) (events : List FetchEvent) : LaneSession :=
  events.foldl onRequest s

/-- A capture session started from the fresh state the crawler allocates at
binding time (`new Set()`, src/preview.ts line 563). -/
def runSession (events : List FetchEvent) : LaneSession :=
  runFrom emptySession events

example : seqKeyOf "https://h/media_31.ts" = JSNumber.finite 31 0 := by decide
example : seqKeyOf "https://h/media.ts" = JSNumber.nan := by decide
example : seqKeyOf "https://h/a_1.2.ts" = JSNumber.finite 12 (-1) := by decide
example : seqKeyOf "https://h/a_1.2.ts" ≠ seqKeyOf "https://h/b_3.4.ts" := by decide
example : jsEndsWithTs "https://h/media_31.ts" = true := by decide
example :
    (runSession [{ url := "https://h/a_3.ts", result := some [7], time := ⟨2024, 0, 1, 0, 0, 0, 0⟩ }]).files.length
      = 1 := by decide

/-! ### The manifest: `generateFileList` and `removeEmptyFiles` (src/files.ts) -/

/-- `path.extname`: the suffix of the name starting at its last `.`, or `""`
when the name has no `.` (the leading-dot special case never arises here:
every name starts with a year digit). -/
def extname (s : String) : String :=
  let rev := s.data.reverse
  let pre := rev.takeWhile (fun c => c ≠ '.')
  if pre.length = rev.length then "" else String.mk ('.' :: pre.reverse)

/-- Modelled from the spec: `fs.readdirSync` (src/files.ts line 28) is an
external filesystem call whose listing order Node does not fix; the spec's
reassembly step 1 reads the directory as a lexicographically sorted listing
("List files, sort lexicographically"), which is how it is modelled here.
The sort relation `¬ b.data < a.data` is exactly the string order `a ≤ b`
(`String.le` is `¬ b < a`, and `String.lt` compares the character lists),
spelled on the character lists so that it evaluates. -/
def readdirSync (entries : List String) : List String :=
  List.insertionSort (fun a b => ¬ b.data < a.data) entries

/-- `generateFileList` from src/files.ts lines 26-35, as the manifest CONTENT
it writes: the directory's `.ts` entries, one `file <name>` line each.
(The write of `filelist.txt` into the directory and the returned path are not
modelled; `filelist.txt` itself would be excluded by the `.ts` filter.) -/
def generateFileList (dirEntries : List String) : String :=
  let files := (readdirSync dirEntries).filter (fun f => extname f = ".ts")
  String.intercalate "\n" (files.map (fun f => "file \x27" ++ f ++ "\x27"))

/-- `removeEmptyFiles` from src/files.ts lines 37-54: deletes the zero-size
files of the session directory. -/
def removeEmptyFiles (files : List SegFile) : List SegFile :=
  files.filter (fun f => f.bytes.length ≠ 0)

/-- The manifest the reassembly step builds for a session
(src/preview.ts lines 676-677: `removeEmptyFiles` then `generateFileList`
on the session directory). -/
def sessionManifest (s : LaneSession) : String :=
  generateFileList ((removeEmptyFiles s.files).map (fun f => f.name))

/-- The manifest the claim describes: the session's segment files listed in
exact capture arrival order (this definition follows the spec's words, for
comparison with `sessionManifest`, which follows the code). -/
def arrivalOrderManifest (s : LaneSession) : String :=
  String.intercalate "\n"
    (((removeEmptyFiles s.files).map (fun f => f.name)).map (fun f => "file \x27" ++ f ++ "\x27"))

/-! ### Filesystem model and the reassembly pipeline
(`Crawler.concatVideos`, src/preview.ts lines 469-525 and src/index.ts
lines 51-94; `runFFmpeg` and `deleteTmpFiles`, src/files.ts) -/

/-- The on-disk state the reassembly step touches: existing file paths and
existing directory paths. -/
structure FS where
  files : List String
  dirs : List String
deriving DecidableEq, Repr

/-- `deleteTmpFiles` from src/files.ts lines 16-24: unlink the manifest and
remove the session directory recursively.  (Contents of the removed directory
are represented by the directory entry itself; all runs analysed below call
this with the manifest present, so `unlinkSync`'s throw-on-missing case does
not arise.) -/
def deleteTmpFiles (fs : FS) (fileListPath inputDir : String) : FS :=
  { files := fs.files.erase fileListPath, dirs := fs.dirs.erase inputDir }

/-- `fs.renameSync src dst` on a present source: the path is replaced. -/
def renameTo (fs : FS) (src dst : String) : FS :=
  { fs with files := fs.files.erase src ++ [dst] }

/-- The name `runFFmpeg` (src/files.ts lines 6-14) gives the file its ffmpeg
invocation creates: `{outputFile}-{formatDate(new Date())}.ts`. -/
def runFFmpegName (outputFile : String) (d : JSDate) : String :=
  outputFile ++ "-" ++ formatDate d ++ ".ts"

/-- `MAX_ATTEMPTS = 3` (src/preview.ts line 408, src/index.ts line 14). -/
def MAX_ATTEMPTS : Nat := 3

/-- The environment of one reassembly job, indexed by attempt number:
whether that attempt's ffmpeg invocation fails (non-zero exit / stderr, making
`execPromise` reject), and the two `new Date()` reads of the attempt (at the
`concatVideos` entry, src/preview.ts line 479, and inside `runFFmpeg`,
src/files.ts line 10). -/
structure ConcatEnv where
  ffmpegFails : Nat → Bool
  entryDate : Nat → JSDate
  ffmpegDate : Nat → JSDate

/-- Outcome of a `concatVideos` call: the resulting filesystem, how many times
the external concat tool was invoked, and whether the job ended in the success
path or in the `Max attempts reached` path. -/
structure ConcatResult where
  fs : FS
  invocations : Nat
  succeeded : Bool
  exhausted : Bool
deriving DecidableEq, Repr

/-- `Crawler.concatVideos` from src/preview.ts lines 469-525.
The attempt computes `outputFileName = {outputFile}-{date}.ts` (line 479) and
always invokes `runFFmpeg` first (line 483).  On success ffmpeg creates
`runFFmpegName outputFileName date2` (files.ts appends a second date suffix to
the already-suffixed name) and `renameSync sourcePath` runs, succeeding only
if `sourcePath` exists.  Any throw lands in the catch (lines 492-518), which
first checks `existsSync(sourcePath)` and treats an existing artifact as
success (rename + `deleteTmpFiles`, lines 497-507), then retries while
`attempt < MAX_ATTEMPTS` (lines 509-517), else exits exhausted. -/
def previewConcatVideos (env : ConcatEnv) (fs : FS)
    (fileListPath outputFile inputDirectory : String) (attempt : Nat) : ConcatResult :=
  let outputFileName := outputFile ++ "-" ++ formatDate (env.entryDate attempt) ++ ".ts"
  let sourcePath := outputFileName
  let destinationPath := "videos/" ++ outputFileName
  if env.ffmpegFails attempt then
    if fs.files.contains sourcePath then
      { fs := deleteTmpFiles (renameTo fs sourcePath destinationPath) fileListPath inputDirectory,
        invocations := 1, succeeded := true, exhausted := false }
    else if attempt < MAX_ATTEMPTS then
      let r := previewConcatVideos env fs fileListPath outputFile inputDirectory (attempt + 1)
      { r with invocations := r.invocations + 1 }
    else
      { fs := fs, invocations := 1, succeeded := false, exhausted := true }
  else
    let created := runFFmpegName outputFileName (env.ffmpegDate attempt)
    let fs1 : FS := { fs with files := fs.files ++ [created] }
    if fs1.files.contains sourcePath then
      { fs := deleteTmpFiles (renameTo fs1 sourcePath destinationPath) fileListPath inputDirectory,
        invocations := 1, succeeded := true, exhausted := false }
    else if attempt < MAX_ATTEMPTS then
      let r := previewConcatVideos env fs1 fileListPath outputFile inputDirectory (attempt + 1)
      { r with invocations := r.invocations + 1 }
    else
      { fs := fs1, invocations := 1, succeeded := false, exhausted := true }
termination_by MAX_ATTEMPTS + 1 - attempt
decreasing_by
  all_goals simp_wf
  all_goals omega

/-- `Crawler.concatVideos` from src/index.ts lines 51-94: invoke `runFFmpeg`
with the bare base name (the created file `realFileName` gets one date
suffix), rename it into `videos/`, and on any throw retry while
`attempt < MAX_ATTEMPTS`.  No artifact-existence check, and no
`deleteTmpFiles` call inside. -/
def indexConcatVideos (env : ConcatEnv) (fs : FS)
    (fileListPath outputFile inputDirectory : String) (attempt : Nat) : ConcatResult :=
  if env.ffmpegFails attempt then
    if attempt < MAX_ATTEMPTS then
      let r := indexConcatVideos env fs fileListPath outputFile inputDirectory (attempt + 1)
      { r with invocations := r.invocations + 1 }
    else
      { fs := fs, invocations := 1, succeeded := false, exhausted := true }
  else
    let realFileName := runFFmpegName outputFile (env.ffmpegDate attempt)
    let fs1 : FS := { fs with files := fs.files ++ [realFileName] }
    if fs1.files.contains realFileName then
      { fs := renameTo fs1 realFileName ("videos/" ++ realFileName),
        invocations := 1, succeeded := true, exhausted := false }
    else if attempt < MAX_ATTEMPTS then
      let r := indexConcatVideos env fs1 fileListPath outputFile inputDirectory (attempt + 1)
      { r with invocations := r.invocations + 1 }
    else
      { fs := fs1, invocations := 1, succeeded := false, exhausted := true }
termination_by MAX_ATTEMPTS + 1 - attempt
decreasing_by
  all_goals simp_wf
  all_goals omega

/-- The reassembly tail of `Crawler.launch` in src/index.ts lines 223-226:
run `concatVideos` from attempt 0, then call `deleteTmpFiles`
unconditionally — whatever the job's outcome was. -/
def indexFinalizeSession (env : ConcatEnv) (fs : FS)
    (fileListPath outputFile inputDirectory : String) : ConcatResult :=
  let r := indexConcatVideos env fs fileListPath outputFile inputDirectory 0
  { r with fs := deleteTmpFiles r.fs fileListPath inputDirectory }

/-! ### Target selection: `findPerson` (src/scraper.ts lines 98-182) -/

/-- One entry of the mapped API response (`OutputType` in src/scraper.ts). -/
structure OutputType where
  username : String
  numUsers : Int
  currentShow : String
deriving DecidableEq, Repr

/-- One entry of the `loggedIn` working list in `findPerson`. -/
structure LoggedIn where
  username : String
  rank : Nat
  viewers : Int
deriving DecidableEq, Repr, Inhabited

/-- The hard-coded target list of src/scraper.ts lines 4-82 (name, rank). -/
def scraperList : List (String × Nat) :=
  [("mia_moooore", 2), ("_milkyway", 2), ("xxx_leila", 3), ("luxmur", 3),
   ("gigglygianni", 4), ("angel_luisa", 3), ("victoriahillova", 4),
   ("bridget_spring6871", 3), ("funny_to_see_you_here", 3), ("girl_next_door19", 3),
   ("bellacle", 3), ("babyaylin", 1), ("cassies1", 2), ("heyhorny_cb", 1),
   ("aya_hitakayamaaa", 1), ("mia_elfie", 3), ("sensualica", 1), ("imrealsugar", 3),
   ("bunnybonn1e", 2), ("sweet_yasu", 1), ("k_yasu", 1), ("asuno_", 3),
   ("hee_jeen", 2), ("chloewildd", 1), ("jeangreybianca", 2), ("caylin", 4),
   ("miladenver", 3), ("kriss0leoo", 1), ("leahsthetics", 2), ("e_______", 1),
   ("ms_seductive", 1), ("indiansweety", 1), ("sweety_rinushka", 3),
   ("venus_in_jeans", 4), ("selenarae", 4), ("emma_lu1", 4), ("galantini", 3),
   ("girl_of_yourdreams_", 1), ("intim_mate", 2), ("gigi_ulala", 1),
   ("eva_fashionista", 2), ("lau__1", 4), ("shy_cuteie18", 3), ("ingridblondy94", 4),
   ("anabel054", 4), ("thecherie", 1), ("daily_dosessshhhh", 4), ("alicepreuoston", 4),
   ("kira0541", 4), ("willow_hendrix", 4), ("yoonipooni", 2), ("blonde_riderxxx", 3),
   ("shysashy", 2), ("sloppyqueenuk", 3), ("_isiah", 3), ("ksensual", 3),
   ("catanddickxxx", 2), ("alissgrey", 3), ("alisonrouge", 1), ("hee_jin", 4),
   ("sharlin_13", 3), ("_meganmeow_", 2), ("tiffanyhouston_", 2), ("cuteelsa_", 3),
   ("tqla", 1), ("yoori_s", 2), ("emyii", 1), ("hannahjames710", 3),
   ("jackandjill", 1), ("artejones", 1), ("ake_mi", 2), ("iminako", 2),
   ("riskyproject", 3), ("baby6_boy9", 3), ("naughtysammx", 2), ("n_o_v_a", 3),
   ("floret_joy", 4)]

/-- `listNotInApi` from src/scraper.ts line 84. -/
def listNotInApi : List String := ["artejones", "e_______", "thecherie"]

/-- The external calls `findPerson` makes: the primary list fetch
(src/scraper.ts line 101, rejection NOT caught), the parse+map of its body
(lines 133-139, inside the try of lines 132-179), and the per-name
status lookups (each inside its own try, lines 105-127). -/
structure ScraperEnv where
  mainFetch : Except Unit Unit
  mainJson : Except Unit (List OutputType)
  notInApiStatus : String → Except Unit String

/-- `findPerson` from src/scraper.ts lines 98-182.  The primary `fetch` at
line 101 sits OUTSIDE every try block: its rejection propagates to the
caller.  Per-name lookups are caught individually and drop to nothing; a
failing body parse is caught by the outer try and the function returns
`undefined` (`ok none`).  Otherwise the public targets are ranked by viewers
(descending, stable sort modelling the V8 comparator `b.viewers - a.viewers`)
and bucketed by rank 1-4, and the entry at position `index` across the
buckets is returned. -/
def findPerson (env : ScraperEnv) (index : Nat) : Except Unit (Option String) :=
  match env.mainFetch with
  | Except.error e => Except.error e
  | Except.ok _ =>
    let infosNotInApi : List OutputType := listNotInApi.filterMap (fun name =>
      match env.notInApiStatus name with
      | Except.error _ => none
      | Except.ok status =>
        if status = "public" then
          some { username := name, numUsers := 3000, currentShow := "public" }
        else none)
    match env.mainJson with
    | Except.error _ => Except.ok none
    | Except.ok jsonRes =>
      let combined := jsonRes ++ infosNotInApi
      let loggedIn : List LoggedIn := scraperList.filterMap (fun person =>
        match combined.find? (fun logged =>
            logged.username = person.1 && logged.currentShow = "public") with
        | some logged =>
          some { username := person.1, rank := person.2, viewers := logged.numUsers }
        | none => none)
      let sortedByViewers := loggedIn.mergeSort (fun a b => b.viewers ≤ a.viewers)
      let rankOne := sortedByViewers.filter (fun p => p.rank = 1)
      if rankOne.length > index then
        Except.ok (some ((rankOne.getD index default).username))
      else
        let rankTwo := sortedByViewers.filter (fun p => p.rank = 2)
        if rankOne.length + rankTwo.length > index then
          Except.ok (some ((rankTwo.getD (index - rankOne.length) default).username))
        else
          let rankThree := sortedByViewers.filter (fun p => p.rank = 3)
          if rankOne.length + rankTwo.length + rankThree.length > index then
            Except.ok (some ((rankThree.getD (index - rankOne.length - rankTwo.length) default).username))
          else
            let rankFour := sortedByViewers.filter (fun p => p.rank = 4)
            if rankOne.length + rankTwo.length + rankThree.length + rankFour.length > index then
              Except.ok (some ((rankFour.getD (index - rankOne.length - rankTwo.length - rankThree.length) default).username))
            else
              Except.ok none

/-! ### Lane binding: `Crawler.handleTab` and the round loop
(src/preview.ts lines 536-658) -/

/-- `startsWith` on character lists (second argument is the candidate
starter). -/
def startsWithChars : List Char → List Char → Bool
  | _, [] => true
  | [], _ :: _ => false
  | a :: as, b :: bs => a = b && startsWithChars as bs

/-- Substring occurrence on character lists. -/
def hasSubstr (sub : List Char) : List Char → Bool
  | [] => sub.isEmpty
  | c :: rest => startsWithChars (c :: rest) sub || hasSubstr sub rest

/-- JS `s.includes(u)`: `u` occurs as a substring of `s`
(src/preview.ts lines 550, 558). -/
def includesStr (s u : String) : Bool :=
  hasSubstr u.data s.data

/-- Accumulator pass for `jsUniq`: drop elements already seen. -/
def jsUniqGo (seen : List String) : List String → List String
  | [] => []
  | x :: xs => if x ∈ seen then jsUniqGo seen xs else x :: jsUniqGo (seen ++ [x]) xs

/-- lodash `uniq`: keep the first occurrence of each element
(src/preview.ts line 652). -/
def jsUniq (l : List String) : List String :=
  jsUniqGo [] l

/-- The `Crawler` fields touched by a round (src/preview.ts lines 407-415),
all indexed by lane: `HAD_NEW_REQUEST`, `currentUsernames`,
`currentInputDirectories`, `currentPageFilesNumber`, and the shared
registry `outputFileDirs`. -/
structure CrawlerState where
  hadNewRequest : List Bool
  currentUsernames : List String
  currentInputDirectories : List String
  currentPageFilesNumber : List (List JSNumber)
  outputFileDirs : List String
deriving DecidableEq, Repr

/-- The lane-local outcome of one `handleTab` call: the lane's new field
values and the directory name the call returns. -/
structure TabOutcome where
  username : String
  inputDirectory : String
  pageFilesNumber : List JSNumber
  hadNewRequest : Bool
  ret : String
deriving DecidableEq, Repr

/-- `Crawler.handleTab` from src/preview.ts lines 536-611, with `selected`
the result of the `findPerson` call (line 541).  A `none` selection returns
the current directory untouched (lines 543-548).  A changed name rebinds:
the directory is a fresh `{username}-{formatDate(now)}` unless some
registered `outputFileDirs` entry contains the username, in which case that
entry is reused (lines 549-560; the `find || inputDirectory` fallback keeps
the fresh name when the found entry is falsy).  Rebinding resets the lane's
dedup set (line 563) and sets `firstTime`, so the tail flag logic
(lines 602-610) always leaves `HAD_NEW_REQUEST` false; an unchanged binding
with no new requests takes the reload branch and leaves the (false) flag
as is.  Browser side effects (goto, reload, bringToFront) have no state. -/
def handleTab (st : CrawlerState) (index : Nat) (selected : Option String)
    (now : JSDate) : TabOutcome :=
  let curUser := st.currentUsernames.getD index ""
  let curDir := st.currentInputDirectories.getD index ""
  let curSet := st.currentPageFilesNumber.getD index []
  let curHad := st.hadNewRequest.getD index false
  if selected ≠ some curUser then
    match selected with
    | none =>
      { username := curUser, inputDirectory := curDir, pageFilesNumber := curSet,
        hadNewRequest := curHad, ret := curDir }
    | some username =>
      let fresh := username ++ "-" ++ formatDate now
      let inputDirectory :=
        if st.outputFileDirs.any (fun dir => includesStr dir username) then
          match st.outputFileDirs.find? (fun dir => includesStr dir username) with
          | some d => if d = "" then fresh else d
          | none => fresh
        else fresh
      { username := username, inputDirectory := inputDirectory, pageFilesNumber := [],
        hadNewRequest := false, ret := inputDirectory }
  else
    if curHad = false then
      { username := curUser, inputDirectory := curDir, pageFilesNumber := curSet,
        hadNewRequest := curHad, ret := curDir }
    else
      { username := curUser, inputDirectory := curDir, pageFilesNumber := curSet,
        hadNewRequest := false, ret := curDir }

/-- One round of the run loop (src/preview.ts lines 646-652): all lanes run
`handleTab` against the round-start state (`Promise.all`; each lane writes
only its own slots and reads the round-start `outputFileDirs`), then the
returned directories are compacted, appended to `outputFileDirs`, and
de-duplicated with `uniq`. -/
def runRound (st : CrawlerState) (selected : List (Option String))
    (times : List JSDate) : CrawlerState :=
  let n := st.currentUsernames.length
  let outcomes := (List.range n).map (fun i =>
    handleTab st i (selected.getD i none) (times.getD i ⟨0, 0, 0, 0, 0, 0, 0⟩))
  let tabResults := outcomes.map (fun o => o.ret)
  { hadNewRequest := outcomes.map (fun o => o.hadNewRequest),
    currentUsernames := outcomes.map (fun o => o.username),
    currentInputDirectories := outcomes.map (fun o => o.inputDirectory),
    currentPageFilesNumber := outcomes.map (fun o => o.pageFilesNumber),
    outputFileDirs := jsUniq (st.outputFileDirs ++ tabResults.filter (fun r => r ≠ "")) }

/-- The run loop counter of src/preview.ts lines 644-658:
`while (!SHOULD_STOP && minutesElapsed < 120)`, adding 10 minutes per round.
Returns the number of rounds run.  `fuel` only bounds the recursion (any
fuel larger than 12 is enough for the loop to exit by its own condition). -/
def previewLoop (shouldStop : Nat → Bool) : Nat → Nat → Nat → Nat
  | 0, _, rounds => rounds
  | fuel + 1, minutesElapsed, rounds =>
    if shouldStop rounds = false ∧ minutesElapsed < 120 then
      previewLoop shouldStop fuel (minutesElapsed + 10) (rounds + 1)
    else rounds

/-- The idle round loop of src/index.ts lines 193-207:
`HAD_NEW_REQUEST = true; while (HAD_NEW_REQUEST && !SHOULD_STOP) { ...;
HAD_NEW_REQUEST = false; sleep 5min }`, where `activity r` tells whether any
segment arrived during round `r`'s wait (setting the flag back).  Returns the
number of rounds run; `fuel` only bounds the recursion.  The name-change
break of line 196 is not modelled (selector treated as stable). -/
def indexIdleLoop (activity : Nat → Bool) (shouldStop : Nat → Bool) :
    Nat → Bool → Nat → Nat
  | 0, _, rounds => rounds
  | fuel + 1, had, rounds =>
    if had = true ∧ shouldStop rounds = false then
      indexIdleLoop activity shouldStop fuel (activity rounds) (rounds + 1)
    else rounds

/-! ### Helper lemmas about `onRequest` -/

/-- An event whose dedup key is already in the session's set changes nothing
(this also covers caught fetch rejections, empty payloads and non-`.ts`
URLs, which change nothing regardless of the key). -/
theorem onRequest_absorbed (s : LaneSession) (e : FetchEvent)
    (h : seqKeyOf e.url ∈ s.fileNumbers) : onRequest s e = s := by
  unfold onRequest
  split
  · cases hr : e.result with
    | none => rfl
    | some buffer =>
      split
      · rfl
      · have hc : s.fileNumbers.contains (seqKeyOf e.url) = true := by
          simpa [List.contains] using h
        simp [hc, h]
  · rfl

/-- A non-`.ts` URL changes nothing. -/
theorem onRequest_not_ts (s : LaneSession) (e : FetchEvent)
    (h : jsEndsWithTs e.url = false) : onRequest s e = s := by
  simp [onRequest, h]

/-- A rejected fetch is caught and changes nothing. -/
theorem onRequest_fetch_rejected (s : LaneSession) (e : FetchEvent)
    (h : e.result = none) : onRequest s e = s := by
  unfold onRequest
  rw [h]
  split <;> rfl

/-- An empty payload changes nothing (helper form of C7). -/
theorem onRequest_empty_payload (s : LaneSession) (e : FetchEvent)
    (h : e.result = some []) : onRequest s e = s := by
  unfold onRequest
  rw [h]
  split
  · simp
  · rfl

/-- A `.ts` event with a non-empty payload and a fresh dedup key appends
exactly one file and one key. -/
theorem onRequest_fresh_write (s : LaneSession) (e : FetchEvent) (p : List Nat)
    (hts : jsEndsWithTs e.url = true) (hp : e.result = some p) (hpne : p ≠ [])
    (hnew : seqKeyOf e.url ∉ s.fileNumbers) :
    onRequest s e =
      { fileNumbers := s.fileNumbers ++ [seqKeyOf e.url],
        files := s.files ++
          [{ name := formatDate e.time ++ lastComponent e.url,
             seqKey := seqKeyOf e.url, bytes := p }],
        hadNewRequest := true } := by
  unfold onRequest
  rw [hts, hp]
  have hc : s.fileNumbers.contains (seqKeyOf e.url) = false := by
    simpa [List.contains] using hnew
  simp [hc, List.length_eq_zero, hpne, hnew]

/-- A single `onRequest` step never removes a key from the dedup set. -/
theorem onRequest_fileNumbers_mono (s : LaneSession) (e : FetchEvent) (k : JSNumber)
    (h : k ∈ s.fileNumbers) : k ∈ (onRequest s e).fileNumbers := by
  by_cases hts : jsEndsWithTs e.url
  · cases hr : e.result with
    | none => rw [onRequest_fetch_rejected s e hr]; exact h
    | some buffer =>
      by_cases hmem : seqKeyOf e.url ∈ s.fileNumbers
      · rw [onRequest_absorbed s e hmem]; exact h
      · by_cases hb : buffer = []
        · rw [hb] at hr
          rw [onRequest_empty_payload s e hr]
          exact h
        · rw [onRequest_fresh_write s e buffer hts hr hb hmem]
          exact List.mem_append_left _ h
  · rw [onRequest_not_ts s e (by simpa using hts)]; exact h

/-- Folding a whole event trace never removes a key from the dedup set. -/
theorem runFrom_fileNumbers_mono (events : List FetchEvent) :
    ∀ (s : LaneSession) (k : JSNumber),
      k ∈ s.fileNumbers → k ∈ (runFrom s events).fileNumbers := by
  induction events with
  | nil => intro s k h; exact h
  | cons e es ih =>
    intro s k h
    exact ih (onRequest s e) k (onRequest_fileNumbers_mono s e k h)

/-- A trace whose every event carries an already-seen key is fully absorbed. -/
theorem runFrom_absorbed (es : List FetchEvent) (s : LaneSession)
    (h : ∀ e ∈ es, seqKeyOf e.url ∈ s.fileNumbers) : runFrom s es = s := by
  induction es with
  | nil => rfl
  | cons e es ih =>
    have h1 : onRequest s e = s := onRequest_absorbed s e (h e (List.mem_cons_self e es))
    show runFrom (onRequest s e) es = s
    rw [h1]
    exact ih (fun ev hev => h ev (List.mem_cons_of_mem e hev))

/-! ### C2 -/

/-- C2: within one capture session the dedup set of sequence numbers only
grows (no step of the event fold removes a key), and for any non-empty
sequence of delivered fetch events all carrying the same (finite) sequence
number — canonical key `mantissa * 10 ^ exp10` — the session directory ends
up containing exactly one file for that number. -/
theorem dedup_grows_and_repeated_number_yields_one_file :
    (∀ (s : LaneSession) (events : List FetchEvent) (k : JSNumber),
        k ∈ s.fileNumbers → k ∈ (runFrom s events).fileNumbers) ∧
    (∀ (m exp10 : Int) (e : FetchEvent) (es : List FetchEvent),
        (∀ ev ∈ e :: es, jsEndsWithTs ev.url = true ∧
            seqKeyOf ev.url = JSNumber.finite m exp10 ∧
            ∃ p, ev.result = some p ∧ p ≠ []) →
        ((runSession (e :: es)).files.filter
            (fun f => f.seqKey = JSNumber.finite m exp10)).length = 1) := by
  constructor
  · intro s events k h
    exact runFrom_fileNumbers_mono events s k h
  · intro m exp10 e es h
    obtain ⟨hts, hk, p, hp, hpne⟩ := h e (List.mem_cons_self e es)
    have h1 := onRequest_fresh_write emptySession e p hts hp hpne (by simp [emptySession])
    show ((runFrom (onRequest emptySession e) es).files.filter _).length = 1
    rw [h1, runFrom_absorbed es _ (fun ev hev => by
      obtain ⟨_, hk2, _⟩ := h ev (List.mem_cons_of_mem e hev)
      simp [hk2, hk, emptySession])]
    simp [emptySession, hk]

/-- Witness for C2 at concrete inputs: a key survives an (empty) trace, and
two deliveries of sequence number 31 leave exactly one file for 31. -/
theorem dedup_grows_witness :
    JSNumber.finite 7 0 ∈ (runFrom ⟨[JSNumber.finite 7 0], [], false⟩ []).fileNumbers ∧
    ((runSession
        [⟨"https://h/a_31.ts", some [5], ⟨2024, 0, 1, 0, 0, 0, 0⟩⟩,
         ⟨"https://h/a_31.ts", some [6], ⟨2024, 0, 1, 0, 0, 1, 0⟩⟩]).files.filter
        (fun f => f.seqKey = JSNumber.finite 31 0)).length = 1 := by
  constructor
  · exact dedup_grows_and_repeated_number_yields_one_file.1
      ⟨[JSNumber.finite 7 0], [], false⟩ [] (JSNumber.finite 7 0) (by decide)
  · refine dedup_grows_and_repeated_number_yields_one_file.2 31 0 _ _ ?_
    intro ev hev
    rcases List.mem_cons.mp hev with h | hev2
    · subst h; exact ⟨by decide, by decide, [5], rfl, by decide⟩
    · rcases List.mem_cons.mp hev2 with h | hev3
      · subst h; exact ⟨by decide, by decide, [6], rfl, by decide⟩
      · exact absurd hev3 (List.not_mem_nil ev)

/-! ### C7 -/

/-- C7: an intercepted segment fetch whose payload has zero bytes changes
nothing — no file, no dedup-set insertion, no activity flag; the session
state is exactly as before the event. -/
theorem zero_byte_fetch_changes_nothing (s : LaneSession) (e : FetchEvent)
    (h : e.result = some []) : onRequest s e = s := by
  unfold onRequest
  rw [h]
  split
  · simp
  · rfl

/-- Witness for C7 at a concrete input. -/
theorem zero_byte_fetch_witness :
    onRequest emptySession ⟨"https://h/a_1.ts", some [], ⟨2024, 0, 1, 0, 0, 0, 0⟩⟩
      = emptySession :=
  zero_byte_fetch_changes_nothing emptySession _ rfl

/-! ### C10 -/

/-- C10: all delivered events of a session whose URL substrings are not JS
numbers at all — `Number()` yields `NaN` — share the single dedup key
`JSNumber.nan`: the first such event's file is written, and every further
one is discarded as a duplicate, so exactly the first file remains.
(JS-numeric substrings — decimals, exponents, hex, signs, `Infinity` — get
their own finite or infinite keys and do NOT collapse with `NaN`.) -/
theorem unparsable_urls_collapse_to_nan (e : FetchEvent) (es : List FetchEvent)
    (h : ∀ ev ∈ e :: es, jsEndsWithTs ev.url = true ∧ seqKeyOf ev.url = JSNumber.nan ∧
        ∃ p, ev.result = some p ∧ p ≠ []) :
    (runSession (e :: es)).files.map (fun f => f.name)
      = [formatDate e.time ++ lastComponent e.url] := by
  obtain ⟨hts, hk, p, hp, hpne⟩ := h e (List.mem_cons_self e es)
  have h1 := onRequest_fresh_write emptySession e p hts hp hpne (by simp [emptySession])
  show ((runFrom (onRequest emptySession e) es).files.map _) = _
  rw [h1, runFrom_absorbed es _ (fun ev hev => by
    obtain ⟨_, hk2, _⟩ := h ev (List.mem_cons_of_mem e hev)
    simp [hk2, hk, emptySession])]
  simp [emptySession]

/-! ### C3, C4, C5: the reassembly retry step -/

/-- An environment in which every ffmpeg invocation fails, at a fixed date. -/
def envAllFail : ConcatEnv :=
  { ffmpegFails := fun _ => true,
    entryDate := fun _ => ⟨2024, 0, 1, 0, 0, 0, 0⟩,
    ffmpegDate := fun _ => ⟨2024, 0, 1, 0, 0, 0, 0⟩ }

/-- One-step unfolding of `previewConcatVideos`: failed invocation, no
artifact on disk, retries left. -/
theorem previewConcat_fail_retry (env : ConcatEnv) (fs : FS)
    (flp out dir : String) (attempt : Nat)
    (hf : env.ffmpegFails attempt = true)
    (hc : fs.files.contains (out ++ "-" ++ formatDate (env.entryDate attempt) ++ ".ts") = false)
    (ha : attempt < MAX_ATTEMPTS) :
    previewConcatVideos env fs flp out dir attempt =
      { previewConcatVideos env fs flp out dir (attempt + 1) with
        invocations := (previewConcatVideos env fs flp out dir (attempt + 1)).invocations + 1 } := by
  rw [previewConcatVideos.eq_def]
  dsimp only
  rw [if_pos hf, if_neg (by simpa [List.contains] using hc), if_pos ha]

/-- One-step unfolding of `previewConcatVideos`: failed invocation, no
artifact on disk, no retries left. -/
theorem previewConcat_fail_exhaust (env : ConcatEnv) (fs : FS)
    (flp out dir : String) (attempt : Nat)
    (hf : env.ffmpegFails attempt = true)
    (hc : fs.files.contains (out ++ "-" ++ formatDate (env.entryDate attempt) ++ ".ts") = false)
    (ha : ¬ attempt < MAX_ATTEMPTS) :
    previewConcatVideos env fs flp out dir attempt =
      { fs := fs, invocations := 1, succeeded := false, exhausted := true } := by
  rw [previewConcatVideos.eq_def]
  dsimp only
  rw [if_pos hf, if_neg (by simpa [List.contains] using hc), if_neg ha]

/-- The concrete all-failing run used by the C3 counterexample and the C5
witness: four invocations, exhausted, filesystem untouched. -/
theorem allFail_preview_run :
    previewConcatVideos envAllFail ⟨["sess/filelist.txt"], ["sess"]⟩
        "sess/filelist.txt" "out" "sess" 0
      = ⟨⟨["sess/filelist.txt"], ["sess"]⟩, 4, false, true⟩ := by
  rw [previewConcat_fail_retry envAllFail _ _ _ _ 0 rfl (by decide) (by decide),
    previewConcat_fail_retry envAllFail _ _ _ _ 1 rfl (by decide) (by decide),
    previewConcat_fail_retry envAllFail _ _ _ _ 2 rfl (by decide) (by decide),
    previewConcat_fail_exhaust envAllFail _ _ _ _ 3 rfl (by decide) (by decide)]

/-- Invocation-count bound for `previewConcatVideos`: starting at `attempt`,
with `m` retries left before `MAX_ATTEMPTS`, at most `m + 1` invocations
happen. -/
theorem previewConcat_invocations_le (env : ConcatEnv) :
    ∀ (m : Nat) (fs : FS) (flp out dir : String) (attempt : Nat),
      attempt + m = MAX_ATTEMPTS →
      (previewConcatVideos env fs flp out dir attempt).invocations ≤ m + 1 := by
  intro m
  induction m with
  | zero =>
    intro fs flp out dir attempt h
    have ha : ¬ attempt < MAX_ATTEMPTS := by omega
    rw [previewConcatVideos.eq_def]
    dsimp only
    by_cases hf : env.ffmpegFails attempt = true
    · rw [if_pos hf]
      by_cases hc : fs.files.contains
          (out ++ "-" ++ formatDate (env.entryDate attempt) ++ ".ts") = true
      · rw [if_pos hc]
      · rw [if_neg hc, if_neg ha]
    · rw [if_neg hf]
      by_cases hc : (fs.files ++
          [runFFmpegName (out ++ "-" ++ formatDate (env.entryDate attempt) ++ ".ts")
            (env.ffmpegDate attempt)]).contains
          (out ++ "-" ++ formatDate (env.entryDate attempt) ++ ".ts") = true
      · rw [if_pos hc]
      · rw [if_neg hc, if_neg ha]
  | succ m ih =>
    intro fs flp out dir attempt h
    rw [previewConcatVideos.eq_def]
    dsimp only
    by_cases hf : env.ffmpegFails attempt = true
    · rw [if_pos hf]
      by_cases hc : fs.files.contains
          (out ++ "-" ++ formatDate (env.entryDate attempt) ++ ".ts") = true
      · rw [if_pos hc]
        dsimp only
        omega
      · rw [if_neg hc, if_pos (show attempt < MAX_ATTEMPTS by omega)]
        have h2 := ih fs flp out dir (attempt + 1) (by omega)
        dsimp only
        omega
    · rw [if_neg hf]
      by_cases hc : (fs.files ++
          [runFFmpegName (out ++ "-" ++ formatDate (env.entryDate attempt) ++ ".ts")
            (env.ffmpegDate attempt)]).contains
          (out ++ "-" ++ formatDate (env.entryDate attempt) ++ ".ts") = true
      · rw [if_pos hc]
        dsimp only
        omega
      · rw [if_neg hc, if_pos (show attempt < MAX_ATTEMPTS by omega)]
        have h2 := ih { fs with files := fs.files ++
          [runFFmpegName (out ++ "-" ++ formatDate (env.entryDate attempt) ++ ".ts")
            (env.ffmpegDate attempt)] } flp out dir (attempt + 1) (by omega)
        dsimp only
        omega

/-- If the job did not end in the success path, the manifest and the session
directory survive `previewConcatVideos` (deletion happens only in the two
success branches). -/
theorem previewConcat_preserves_on_failure (env : ConcatEnv) :
    ∀ (m : Nat) (fs : FS) (flp out dir : String) (attempt : Nat),
      attempt + m = MAX_ATTEMPTS →
      flp ∈ fs.files → dir ∈ fs.dirs →
      (previewConcatVideos env fs flp out dir attempt).succeeded = false →
      flp ∈ (previewConcatVideos env fs flp out dir attempt).fs.files ∧
        dir ∈ (previewConcatVideos env fs flp out dir attempt).fs.dirs := by
  intro m
  induction m with
  | zero =>
    intro fs flp out dir attempt h hm hd hfail
    have ha : ¬ attempt < MAX_ATTEMPTS := by omega
    rw [previewConcatVideos.eq_def] at hfail ⊢
    dsimp only at hfail ⊢
    by_cases hf : env.ffmpegFails attempt = true
    · rw [if_pos hf] at hfail ⊢
      by_cases hc : fs.files.contains
          (out ++ "-" ++ formatDate (env.entryDate attempt) ++ ".ts") = true
      · rw [if_pos hc] at hfail
        simp at hfail
      · rw [if_neg hc, if_neg ha] at hfail ⊢
        exact ⟨hm, hd⟩
    · rw [if_neg hf] at hfail ⊢
      by_cases hc : (fs.files ++
          [runFFmpegName (out ++ "-" ++ formatDate (env.entryDate attempt) ++ ".ts")
            (env.ffmpegDate attempt)]).contains
          (out ++ "-" ++ formatDate (env.entryDate attempt) ++ ".ts") = true
      · rw [if_pos hc] at hfail
        simp at hfail
      · rw [if_neg hc, if_neg ha] at hfail ⊢
        exact ⟨List.mem_append_left _ hm, hd⟩
  | succ m ih =>
    intro fs flp out dir attempt h hm hd hfail
    rw [previewConcatVideos.eq_def] at hfail ⊢
    dsimp only at hfail ⊢
    by_cases hf : env.ffmpegFails attempt = true
    · rw [if_pos hf] at hfail ⊢
      by_cases hc : fs.files.contains
          (out ++ "-" ++ formatDate (env.entryDate attempt) ++ ".ts") = true
      · rw [if_pos hc] at hfail
        simp at hfail
      · rw [if_neg hc, if_pos (show attempt < MAX_ATTEMPTS by omega)] at hfail ⊢
        exact ih fs flp out dir (attempt + 1) (by omega) hm hd hfail
    · rw [if_neg hf] at hfail ⊢
      by_cases hc : (fs.files ++
          [runFFmpegName (out ++ "-" ++ formatDate (env.entryDate attempt) ++ ".ts")
            (env.ffmpegDate attempt)]).contains
          (out ++ "-" ++ formatDate (env.entryDate attempt) ++ ".ts") = true
      · rw [if_pos hc] at hfail
        simp at hfail
      · rw [if_neg hc, if_pos (show attempt < MAX_ATTEMPTS by omega)] at hfail ⊢
        exact ih _ flp out dir (attempt + 1) (by omega) (List.mem_append_left _ hm) hd hfail

/-- C3 counterexample: with every invocation failing and no artifact ever on
disk, a job started at attempt 0 invokes the concat tool 4 times, not at
most 3 (`attempt < MAX_ATTEMPTS` retries at attempts 0, 1 and 2, so
attempts 0-3 all invoke). -/
theorem concat_tool_invoked_four_times :
    3 < (previewConcatVideos envAllFail ⟨["sess/filelist.txt"], ["sess"]⟩
        "sess/filelist.txt" "out" "sess" 0).invocations := by
  rw [allFail_preview_run]
  decide

/-- C3 amended: the retry recursion is total (it is a terminating Lean
function) and a job started at attempt 0 invokes the external concat tool at
most `MAX_ATTEMPTS + 1 = 4` times: the initial attempt plus up to 3
retries. -/
theorem concat_retry_bounded (env : ConcatEnv) (fs : FS) (flp out dir : String) :
    (previewConcatVideos env fs flp out dir 0).invocations ≤ MAX_ATTEMPTS + 1 :=
  previewConcat_invocations_le env MAX_ATTEMPTS fs flp out dir 0 (by omega)

/-- An attempt that finds the expected artifact already on disk ends
succeeded with exactly one tool invocation (helper for C4). -/
theorem previewConcat_artifact_preexists (env : ConcatEnv) (fs : FS)
    (flp out dir : String) (attempt : Nat)
    (h : out ++ "-" ++ formatDate (env.entryDate attempt) ++ ".ts" ∈ fs.files) :
    (previewConcatVideos env fs flp out dir attempt).succeeded = true ∧
      (previewConcatVideos env fs flp out dir attempt).invocations = 1 := by
  have hc : fs.files.contains (out ++ "-" ++ formatDate (env.entryDate attempt) ++ ".ts") = true := by
    simpa [List.contains] using h
  have hc1 : (fs.files ++
      [runFFmpegName (out ++ "-" ++ formatDate (env.entryDate attempt) ++ ".ts")
        (env.ffmpegDate attempt)]).contains
      (out ++ "-" ++ formatDate (env.entryDate attempt) ++ ".ts") = true := by
    have : out ++ "-" ++ formatDate (env.entryDate attempt) ++ ".ts" ∈ fs.files ++
        [runFFmpegName (out ++ "-" ++ formatDate (env.entryDate attempt) ++ ".ts")
          (env.ffmpegDate attempt)] := List.mem_append_left _ h
    simpa [List.contains] using this
  rw [previewConcatVideos.eq_def]
  dsimp only
  by_cases hf : env.ffmpegFails attempt = true
  · rw [if_pos hf, if_pos hc]
    exact ⟨rfl, rfl⟩
  · rw [if_neg hf, if_pos hc1]
    exact ⟨rfl, rfl⟩

/-- C4 counterexample: the expected output artifact is already on disk when
the attempt runs, yet the concat tool is still invoked (once): the
existence check sits in the failure handler, after the invocation, so the
invocation count is not 0 as the claim requires. -/
theorem artifact_preexists_tool_still_invoked :
    (previewConcatVideos envAllFail
        ⟨["sess/filelist.txt", "out" ++ "-" ++ formatDate (envAllFail.entryDate 0) ++ ".ts"],
          ["sess"]⟩
        "sess/filelist.txt" "out" "sess" 0).invocations ≠ 0 := by
  have h := previewConcat_artifact_preexists envAllFail
    ⟨["sess/filelist.txt", "out" ++ "-" ++ formatDate (envAllFail.entryDate 0) ++ ".ts"],
      ["sess"]⟩
    "sess/filelist.txt" "out" "sess" 0 (by simp)
  omega

/-- C4 amended: if the expected output artifact
`{outputFile}-{formatDate(entry date)}.ts` already exists on disk when an
attempt runs, that attempt completes as succeeded with no retry and no
attempt-count increment — but only after invoking the concat tool once,
since the existence check runs in the failure handler rather than before
the invocation. -/
theorem artifact_preexists_succeeds_without_retry (env : ConcatEnv) (fs : FS)
    (flp out dir : String) (attempt : Nat)
    (h : out ++ "-" ++ formatDate (env.entryDate attempt) ++ ".ts" ∈ fs.files) :
    (previewConcatVideos env fs flp out dir attempt).succeeded = true ∧
      (previewConcatVideos env fs flp out dir attempt).invocations = 1 :=
  previewConcat_artifact_preexists env fs flp out dir attempt h

/-- Witness for C4's amended theorem at a concrete input. -/
theorem artifact_preexists_witness :
    (previewConcatVideos envAllFail
        ⟨["out" ++ "-" ++ formatDate (envAllFail.entryDate 0) ++ ".ts"], []⟩
        "sess/filelist.txt" "out" "sess" 0).succeeded = true ∧
      (previewConcatVideos envAllFail
        ⟨["out" ++ "-" ++ formatDate (envAllFail.entryDate 0) ++ ".ts"], []⟩
        "sess/filelist.txt" "out" "sess" 0).invocations = 1 :=
  artifact_preexists_succeeds_without_retry envAllFail _ _ _ _ 0 (by simp)

/-- One-step unfolding of `indexConcatVideos`: failed invocation, retries
left. -/
theorem indexConcat_fail_retry (env : ConcatEnv) (fs : FS)
    (flp out dir : String) (attempt : Nat)
    (hf : env.ffmpegFails attempt = true) (ha : attempt < MAX_ATTEMPTS) :
    indexConcatVideos env fs flp out dir attempt =
      { indexConcatVideos env fs flp out dir (attempt + 1) with
        invocations := (indexConcatVideos env fs flp out dir (attempt + 1)).invocations + 1 } := by
  rw [indexConcatVideos.eq_def]
  dsimp only
  rw [if_pos hf, if_pos ha]

/-- One-step unfolding of `indexConcatVideos`: failed invocation, no retries
left. -/
theorem indexConcat_fail_exhaust (env : ConcatEnv) (fs : FS)
    (flp out dir : String) (attempt : Nat)
    (hf : env.ffmpegFails attempt = true) (ha : ¬ attempt < MAX_ATTEMPTS) :
    indexConcatVideos env fs flp out dir attempt =
      { fs := fs, invocations := 1, succeeded := false, exhausted := true } := by
  rw [indexConcatVideos.eq_def]
  dsimp only
  rw [if_pos hf, if_neg ha]

/-- C5 counterexample: in the src/index.ts pipeline (lines 223-226), after a
fully failed reassembly (status exhausted, no artifact ever on disk), the
unconditional `deleteTmpFiles` call still deletes the manifest and the
session directory — the capture data is NOT left on disk. -/
theorem index_pipeline_deletes_on_exhaustion :
    (indexFinalizeSession envAllFail ⟨["sess/filelist.txt"], ["sess"]⟩
        "sess/filelist.txt" "out" "sess").exhausted = true ∧
      "sess/filelist.txt" ∉ (indexFinalizeSession envAllFail ⟨["sess/filelist.txt"], ["sess"]⟩
        "sess/filelist.txt" "out" "sess").fs.files ∧
      "sess" ∉ (indexFinalizeSession envAllFail ⟨["sess/filelist.txt"], ["sess"]⟩
        "sess/filelist.txt" "out" "sess").fs.dirs := by
  have hrun : indexConcatVideos envAllFail ⟨["sess/filelist.txt"], ["sess"]⟩
      "sess/filelist.txt" "out" "sess" 0
      = ⟨⟨["sess/filelist.txt"], ["sess"]⟩, 4, false, true⟩ := by
    rw [indexConcat_fail_retry envAllFail _ _ _ _ 0 rfl (by decide),
      indexConcat_fail_retry envAllFail _ _ _ _ 1 rfl (by decide),
      indexConcat_fail_retry envAllFail _ _ _ _ 2 rfl (by decide),
      indexConcat_fail_exhaust envAllFail _ _ _ _ 3 rfl (by decide)]
  unfold indexFinalizeSession
  rw [hrun]
  decide

/-- C5 amended: the src/preview.ts pipeline does leave the session directory
and manifest on disk whenever the reassembly job does not succeed (deletion
happens only in the success branches); the src/index.ts pipeline violates
the claim by deleting them unconditionally (see the counterexample). -/
theorem exhausted_preview_job_preserves_data (env : ConcatEnv) (fs : FS)
    (flp out dir : String) (hm : flp ∈ fs.files) (hd : dir ∈ fs.dirs)
    (hfail : (previewConcatVideos env fs flp out dir 0).succeeded = false) :
    flp ∈ (previewConcatVideos env fs flp out dir 0).fs.files ∧
      dir ∈ (previewConcatVideos env fs flp out dir 0).fs.dirs :=
  previewConcat_preserves_on_failure env MAX_ATTEMPTS fs flp out dir 0 (by omega) hm hd hfail

/-- Witness for C5's amended theorem: a concrete all-failing run from which
the manifest and session directory survive. -/
theorem exhausted_preview_job_witness :
    "sess/filelist.txt" ∈ (previewConcatVideos envAllFail ⟨["sess/filelist.txt"], ["sess"]⟩
        "sess/filelist.txt" "out" "sess" 0).fs.files ∧
      "sess" ∈ (previewConcatVideos envAllFail ⟨["sess/filelist.txt"], ["sess"]⟩
        "sess/filelist.txt" "out" "sess" 0).fs.dirs :=
  exhausted_preview_job_preserves_data envAllFail ⟨["sess/filelist.txt"], ["sess"]⟩
    "sess/filelist.txt" "out" "sess" (by simp) (by simp)
    (by rw [allFail_preview_run])

/-- Witness for C10 at concrete inputs: two unparsable URLs, one file. -/
theorem unparsable_urls_witness :
    (runSession
        [⟨"https://h/media.ts", some [5], ⟨2024, 0, 1, 0, 0, 0, 0⟩⟩,
         ⟨"https://h/other.ts", some [6], ⟨2024, 0, 1, 0, 0, 1, 0⟩⟩]).files.map
        (fun f => f.name)
      = [formatDate (⟨2024, 0, 1, 0, 0, 0, 0⟩ : JSDate) ++ lastComponent "https://h/media.ts"] := by
  refine unparsable_urls_collapse_to_nan _ _ ?_
  intro ev hev
  rcases List.mem_cons.mp hev with h | hev2
  · subst h; exact ⟨by decide, by decide, [5], rfl, by decide⟩
  · rcases List.mem_cons.mp hev2 with h | hev3
    · subst h; exact ⟨by decide, by decide, [6], rfl, by decide⟩
    · exact absurd hev3 (List.not_mem_nil ev)

example :
    (runSession
        [⟨"https://h/a_1.2.ts", some [5], ⟨2024, 0, 1, 0, 0, 0, 0⟩⟩,
         ⟨"https://h/b_3.4.ts", some [6], ⟨2024, 0, 1, 0, 0, 1, 0⟩⟩]).files.length = 2 := by
  decide

/-! ### C6: session directory reuse across rebinds -/

/-- The lane arrays as `Crawler.reset(pageNb)` leaves them
(src/preview.ts lines 419-423), with the field initializer value of
`HAD_NEW_REQUEST` (line 407) and `outputFileDirs` cleared as at the start of
the run loop (line 645). -/
def resetState (pageNb : Nat) : CrawlerState :=
  { hadNewRequest := [true, true],
    currentUsernames := List.replicate pageNb "",
    currentInputDirectories := List.replicate pageNb "",
    currentPageFilesNumber := List.replicate pageNb [],
    outputFileDirs := [] }

/-- C6 counterexample: both lanes rebind to the target `alice` in the same
round, before anything is registered in `outputFileDirs`; the two rebinds
allocate two DIFFERENT session directories (the per-lane `new Date()` reads
fall in different seconds), so the same target ends up with two open
directories, against the claim. -/
theorem same_round_rebinds_allocate_two_directories :
    (runRound (resetState 2) [some "alice", some "alice"]
        [⟨2024, 0, 1, 0, 0, 0, 0⟩, ⟨2024, 0, 1, 0, 0, 1, 0⟩]).currentInputDirectories
      = ["alice-2024-01-01_00-00-00", "alice-2024-01-01_00-00-01"] ∧
    "alice-2024-01-01_00-00-00" ≠ "alice-2024-01-01_00-00-01" := by decide

/-- C6 amended: once the target already has a registered directory in
`outputFileDirs` (from any earlier round), every lane rebinding to that
target reuses the registered directory, so any two such rebinds yield the
SAME directory; only rebinds racing in the same round, before registration,
can allocate distinct directories (the tolerated registry race). -/
theorem registered_target_rebinds_reuse_same_directory (st : CrawlerState)
    (i j : Nat) (u d : String) (ti tj : JSDate)
    (hfind : st.outputFileDirs.find? (fun dir => includesStr dir u) = some d)
    (hd : d ≠ "")
    (hi : u ≠ st.currentUsernames.getD i "")
    (hj : u ≠ st.currentUsernames.getD j "") :
    (handleTab st i (some u) ti).ret = d ∧ (handleTab st j (some u) tj).ret = d ∧
      (handleTab st i (some u) ti).ret = (handleTab st j (some u) tj).ret := by
  have hpd := @List.find?_some String (fun dir => includesStr dir u) d st.outputFileDirs hfind
  have hmemd := @List.mem_of_find?_eq_some String (fun dir => includesStr dir u) d
    st.outputFileDirs hfind
  have hany : st.outputFileDirs.any (fun dir => includesStr dir u) = true :=
    List.any_eq_true.mpr ⟨d, hmemd, hpd⟩
  have hret : ∀ (k : Nat) (t : JSDate), u ≠ st.currentUsernames.getD k "" →
      (handleTab st k (some u) t).ret = d := by
    intro k t hk
    unfold handleTab
    rw [if_pos (by simpa using hk)]
    dsimp only
    rw [if_pos hany, hfind]
    dsimp only
    rw [if_neg hd]
  exact ⟨hret i ti hi, hret j tj hj, by rw [hret i ti hi, hret j tj hj]⟩

/-- Witness for C6's amended theorem: with `alice`'s directory registered,
two later rebinds on different lanes at different times both reuse it. -/
theorem registered_target_rebind_witness :
    (handleTab
        { hadNewRequest := [true, true], currentUsernames := ["", ""],
          currentInputDirectories := ["", ""], currentPageFilesNumber := [[], []],
          outputFileDirs := ["alice-2024-01-01_00-00-00"] }
        0 (some "alice") ⟨2024, 0, 1, 5, 0, 0, 0⟩).ret = "alice-2024-01-01_00-00-00" ∧
    (handleTab
        { hadNewRequest := [true, true], currentUsernames := ["", ""],
          currentInputDirectories := ["", ""], currentPageFilesNumber := [[], []],
          outputFileDirs := ["alice-2024-01-01_00-00-00"] }
        1 (some "alice") ⟨2024, 0, 1, 6, 0, 0, 0⟩).ret = "alice-2024-01-01_00-00-00" ∧
    (handleTab
        { hadNewRequest := [true, true], currentUsernames := ["", ""],
          currentInputDirectories := ["", ""], currentPageFilesNumber := [[], []],
          outputFileDirs := ["alice-2024-01-01_00-00-00"] }
        0 (some "alice") ⟨2024, 0, 1, 5, 0, 0, 0⟩).ret =
      (handleTab
        { hadNewRequest := [true, true], currentUsernames := ["", ""],
          currentInputDirectories := ["", ""], currentPageFilesNumber := [[], []],
          outputFileDirs := ["alice-2024-01-01_00-00-00"] }
        1 (some "alice") ⟨2024, 0, 1, 6, 0, 0, 0⟩).ret :=
  registered_target_rebinds_reuse_same_directory _ 0 1 "alice" "alice-2024-01-01_00-00-00"
    ⟨2024, 0, 1, 5, 0, 0, 0⟩ ⟨2024, 0, 1, 6, 0, 0, 0⟩ (by decide) (by decide) (by decide)
    (by decide)

/-! ### C8: selector failure handling -/

/-- A scraper environment whose primary list fetch rejects. -/
def scraperEnvFetchFails : ScraperEnv :=
  { mainFetch := Except.error (),
    mainJson := Except.ok [],
    notInApiStatus := fun _ => Except.ok "offline" }

/-- C8 counterexample: the primary list fetch of `findPerson`
(src/scraper.ts line 101) sits outside every try block, so its failure is
NOT caught inside the selection call — it propagates as an exception instead
of surfacing as `none`. -/
theorem selector_fetch_failure_propagates :
    findPerson scraperEnvFetchFails 0 = Except.error () := rfl

/-- C8 amended: failures of the response parse (and of the per-name
lookups) ARE caught inside `findPerson` and surface as `none`, and a lane
receiving `none` keeps its username, directory, dedup set and flag exactly
as they were, returning the prior directory; but a rejection of the primary
list fetch itself propagates out of the selection call (see the
counterexample). -/
theorem selector_parse_failure_caught_lane_retains (env : ScraperEnv) (index : Nat)
    (hf : env.mainFetch = Except.ok ()) (hj : env.mainJson = Except.error ()) :
    findPerson env index = Except.ok none ∧
    ∀ (st : CrawlerState) (i : Nat) (now : JSDate),
      handleTab st i none now =
        { username := st.currentUsernames.getD i "",
          inputDirectory := st.currentInputDirectories.getD i "",
          pageFilesNumber := st.currentPageFilesNumber.getD i [],
          hadNewRequest := st.hadNewRequest.getD i false,
          ret := st.currentInputDirectories.getD i "" } := by
  constructor
  · unfold findPerson
    rw [hf, hj]
  · intro st i now
    unfold handleTab
    rw [if_pos (by simp)]

/-- A scraper environment whose primary fetch succeeds but whose response
body fails to parse. -/
def scraperEnvParseFails : ScraperEnv :=
  { mainFetch := Except.ok (),
    mainJson := Except.error (),
    notInApiStatus := fun _ => Except.ok "public" }

/-- Witness for C8's amended theorem at a concrete environment and state. -/
theorem selector_parse_failure_witness :
    findPerson scraperEnvParseFails 0 = Except.ok none ∧
    ∀ (st : CrawlerState) (i : Nat) (now : JSDate),
      handleTab st i none now =
        { username := st.currentUsernames.getD i "",
          inputDirectory := st.currentInputDirectories.getD i "",
          pageFilesNumber := st.currentPageFilesNumber.getD i [],
          hadNewRequest := st.hadNewRequest.getD i false,
          ret := st.currentInputDirectories.getD i "" } :=
  selector_parse_failure_caught_lane_retains scraperEnvParseFails 0 rfl rfl

/-! ### C9: idle and max-duration finalization -/

/-- C9 counterexample: lane 0 binds to `alice` and then sits through two
consecutive rounds with zero activity; after those two idle rounds the
session is still bound (same username, same directory — the code merely
reloads the page), and the run loop goes on to execute 12 rounds (120
minutes), so the session is NOT finalized at round 2 / 20 elapsed units. -/
theorem idle_session_not_finalized_at_round_two :
    (runRound (runRound (runRound (resetState 2)
          [some "alice", none] [⟨2024, 0, 1, 0, 0, 0, 0⟩, ⟨2024, 0, 1, 0, 0, 0, 0⟩])
          [some "alice", none] [⟨2024, 0, 1, 0, 10, 0, 0⟩, ⟨2024, 0, 1, 0, 10, 0, 0⟩])
          [some "alice", none] [⟨2024, 0, 1, 0, 20, 0, 0⟩, ⟨2024, 0, 1, 0, 20, 0, 0⟩]).currentUsernames.getD 0 ""
        = "alice" ∧
      (runRound (runRound (runRound (resetState 2)
          [some "alice", none] [⟨2024, 0, 1, 0, 0, 0, 0⟩, ⟨2024, 0, 1, 0, 0, 0, 0⟩])
          [some "alice", none] [⟨2024, 0, 1, 0, 10, 0, 0⟩, ⟨2024, 0, 1, 0, 10, 0, 0⟩])
          [some "alice", none] [⟨2024, 0, 1, 0, 20, 0, 0⟩, ⟨2024, 0, 1, 0, 20, 0, 0⟩]).currentInputDirectories.getD 0 ""
        = "alice-2024-01-01_00-00-00" ∧
      previewLoop (fun _ => false) 13 0 0 = 12 := by decide

/-- C9 amended: in the preview loop, sessions are closed only by the
120-minute cap — with no stop signal the loop runs exactly 12 rounds of 10
minutes, idle or not (see the counterexample for a session surviving two
idle rounds).  In the index loop, a session with zero activity exits after
a single idle round (one 5-minute wait, not two 10-minute rounds), and a
continuously active session is never force-finalized: the loop runs as long
as the recursion allows, with no duration cap. -/
theorem loop_bounds_idle_and_duration :
    previewLoop (fun _ => false) 13 0 0 = 12 ∧
    indexIdleLoop (fun _ => false) (fun _ => false) 10 true 0 = 1 ∧
    (∀ (fuel rounds : Nat),
      indexIdleLoop (fun _ => true) (fun _ => false) fuel true rounds = rounds + fuel) := by
  refine ⟨by decide, by decide, ?_⟩
  intro fuel
  induction fuel with
  | zero => intro rounds; rfl
  | succ n ih =>
    intro rounds
    have hstep : indexIdleLoop (fun _ => true) (fun _ => false) (n + 1) true rounds
        = indexIdleLoop (fun _ => true) (fun _ => false) n true (rounds + 1) := by
      simp [indexIdleLoop]
    rw [hstep, ih]
    omega

/-! ### C1: manifest order versus arrival order -/

/-- Lexicographic `List.lt` is preserved by appending arbitrary suffixes when
the compared lists have equal length. -/
theorem listLt_append_of_length_eq {a b : List Char} :
    ∀ {l₁ l₂ : List Char}, l₁ < l₂ → l₁.length = l₂.length →
      l₁ ++ a < l₂ ++ b := by
  intro l₁ l₂ h
  induction h with
  | nil =>
    intro hlen
    simp at hlen
  | cons h ih =>
    intro hlen
    exact List.Lex.cons (ih (by simpa using hlen))
  | rel h =>
    intro _
    exact List.Lex.rel h

/-- Strict `String` order is preserved by appending suffixes to two strings
of the same length. -/
theorem stringLt_append_of_length_eq {s t u v : String} (h : s < t)
    (hl : s.length = t.length) : s ++ u < t ++ v := by
  have hd : s.toList < t.toList := String.lt_iff_toList_lt.mp h
  have hlen : s.data.length = t.data.length := hl
  have h2 := listLt_append_of_length_eq (a := u.data) (b := v.data) hd hlen
  exact String.lt_iff_toList_lt.mpr (by simpa [String.toList, String.data_append] using h2)

/-- Unfolding of a successful `.ts` suffix test. -/
theorem jsEndsWithTs_elim (s : String) (h : jsEndsWithTs s = true) :
    ∃ r, s.data.reverse = 's' :: 't' :: '.' :: r := by
  unfold jsEndsWithTs at h
  split at h
  · rename_i r heq
    exact ⟨r, heq⟩
  · simp at h

/-- Appending on the left preserves the `.ts` suffix. -/
theorem jsEndsWithTs_append (a b : String) (h : jsEndsWithTs b = true) :
    jsEndsWithTs (a ++ b) = true := by
  obtain ⟨r, hr⟩ := jsEndsWithTs_elim b h
  unfold jsEndsWithTs
  rw [String.data_append, List.reverse_append, hr]
  rfl

/-- The last URL path component of a `.ts` URL still ends in `.ts`
(the suffix contains no `/`). -/
theorem jsEndsWithTs_lastComponent (s : String) (h : jsEndsWithTs s = true) :
    jsEndsWithTs (lastComponent s) = true := by
  obtain ⟨r, hr⟩ := jsEndsWithTs_elim s h
  unfold jsEndsWithTs lastComponent
  rw [show (String.mk ((s.data.reverse.takeWhile (fun c => c ≠ '/')).reverse)).data
      = (s.data.reverse.takeWhile (fun c => c ≠ '/')).reverse from rfl,
    List.reverse_reverse, hr]
  simp [List.takeWhile_cons]

/-- `path.extname` of a name ending in `.ts` is `.ts`. -/
theorem extname_of_jsEndsWithTs (s : String) (h : jsEndsWithTs s = true) :
    extname s = ".ts" := by
  obtain ⟨r, hr⟩ := jsEndsWithTs_elim s h
  unfold extname
  rw [hr]
  dsimp only
  rw [show List.takeWhile (fun c => c ≠ '.') ('s' :: 't' :: '.' :: r) = ['s', 't'] by
    simp [List.takeWhile_cons]]
  rw [if_neg (by simp)]
  decide

/-- Either an `onRequest` step changes nothing, or it is a fresh write of a
non-empty `.ts` payload appending one key and one file. -/
theorem onRequest_cases (s : LaneSession) (e : FetchEvent) :
    onRequest s e = s ∨
    ∃ p, e.result = some p ∧ p ≠ [] ∧ jsEndsWithTs e.url = true ∧
      onRequest s e =
        { fileNumbers := s.fileNumbers ++ [seqKeyOf e.url],
          files := s.files ++
            [{ name := formatDate e.time ++ lastComponent e.url,
               seqKey := seqKeyOf e.url, bytes := p }],
          hadNewRequest := true } := by
  by_cases hts : jsEndsWithTs e.url
  · cases hr : e.result with
    | none => exact Or.inl (onRequest_fetch_rejected s e hr)
    | some p =>
      by_cases hmem : seqKeyOf e.url ∈ s.fileNumbers
      · exact Or.inl (onRequest_absorbed s e hmem)
      · by_cases hp : p = []
        · subst hp
          exact Or.inl (onRequest_empty_payload s e hr)
        · exact Or.inr ⟨p, rfl, hp, hts, onRequest_fresh_write s e p hts hr hp hmem⟩
  · exact Or.inl (onRequest_not_ts s e (by simpa using hts))

/-- Running a trace appends to the starting files a batch whose names form a
sublist (in order) of the trace's would-be names, every appended file having
a non-empty payload and a `.ts` name. -/
theorem runFrom_files_structure (es : List FetchEvent) :
    ∀ s : LaneSession, ∃ t : List SegFile,
      (runFrom s es).files = s.files ++ t ∧
      (t.map (fun f => f.name)).Sublist
        (es.map (fun e => formatDate e.time ++ lastComponent e.url)) ∧
      ∀ f ∈ t, f.bytes ≠ [] ∧ jsEndsWithTs f.name = true := by
  induction es with
  | nil =>
    intro s
    exact ⟨[], by simp [runFrom], by simp, by simp⟩
  | cons e es ih =>
    intro s
    rcases onRequest_cases s e with h | ⟨p, hp, hpne, hts, h⟩
    · obtain ⟨t, h1, h2, h3⟩ := ih (onRequest s e)
      refine ⟨t, ?_, ?_, h3⟩
      · show (runFrom (onRequest s e) es).files = _
        rw [h1, h]
      · exact h2.trans (List.sublist_cons_self _ _)
    · obtain ⟨t, h1, h2, h3⟩ := ih (onRequest s e)
      refine
        ⟨{ name := formatDate e.time ++ lastComponent e.url,
           seqKey := seqKeyOf e.url, bytes := p } :: t, ?_, ?_, ?_⟩
      · show (runFrom (onRequest s e) es).files = _
        rw [h1, h]
        simp
      · exact h2.cons₂ _
      · intro f hf
        rcases List.mem_cons.mp hf with rfl | hf
        · exact ⟨hpne, jsEndsWithTs_append _ _ (jsEndsWithTs_lastComponent _ hts)⟩
        · exact h3 f hf

/-- With strictly increasing formatted timestamps of equal rendered length,
the would-be file names of a trace are strictly sorted. -/
theorem trace_names_sorted (events : List FetchEvent)
    (hsort : List.Sorted (fun a b => a < b) (events.map (fun e => formatDate e.time)))
    (hlen : ∀ e ∈ events, ∀ f ∈ events,
      (formatDate e.time).length = (formatDate f.time).length) :
    List.Sorted (fun a b => a < b)
      (events.map (fun e => formatDate e.time ++ lastComponent e.url)) := by
  have hp : events.Pairwise (fun a b => formatDate a.time < formatDate b.time) :=
    List.pairwise_map.mp hsort
  refine List.pairwise_map.mpr (hp.imp_of_mem ?_)
  intro a b ha hb hab
  exact stringLt_append_of_length_eq hab (hlen a ha b hb)

/-- C1 counterexample: two segments arrive at times t1 < t2 within the same
wall-clock second (the filename prefix has seconds granularity), carrying
sequence numbers 3 then 1; the manifest lists them in filename order
`seg_1` before `seg_3`, NOT in arrival order [3, 1]. -/
theorem manifest_misorders_same_second_arrivals :
    sessionManifest (runSession
        [⟨"https://h/seg_3.ts", some [3], ⟨2024, 0, 1, 0, 0, 0, 100⟩⟩,
         ⟨"https://h/seg_1.ts", some [1], ⟨2024, 0, 1, 0, 0, 0, 200⟩⟩])
      ≠ arrivalOrderManifest (runSession
        [⟨"https://h/seg_3.ts", some [3], ⟨2024, 0, 1, 0, 0, 0, 100⟩⟩,
         ⟨"https://h/seg_1.ts", some [1], ⟨2024, 0, 1, 0, 0, 0, 200⟩⟩]) := by decide

/-- C1 amended: provided the session's segments arrive with strictly
increasing seconds-granularity timestamps — at most one segment per rendered
second, timestamps of equal rendered width — the manifest built by the
reassembly step lists the session's files in exact arrival order,
independent of out-of-order or repeated source sequence numbers; without
that proviso same-second arrivals can be misordered (see the
counterexample). -/
theorem manifest_lists_files_in_arrival_order (events : List FetchEvent)
    (hsort : List.Sorted (fun a b : String => a.data < b.data)
      (events.map (fun e => formatDate e.time)))
    (hlen : ∀ e ∈ events, ∀ f ∈ events,
      (formatDate e.time).length = (formatDate f.time).length) :
    sessionManifest (runSession events) = arrivalOrderManifest (runSession events) := by
  have hsortS : List.Sorted (fun a b : String => a < b)
      (events.map (fun e => formatDate e.time)) :=
    hsort.imp (fun hab => String.lt_iff_toList_lt.mpr hab)
  obtain ⟨t, h1, h2, h3⟩ := runFrom_files_structure events emptySession
  have hfiles : (runSession events).files = t := by
    simpa [runSession, emptySession] using h1
  have hnonempty : ∀ f ∈ (runSession events).files, f.bytes ≠ [] := by
    rw [hfiles]
    exact fun f hf => (h3 f hf).1
  have hremove : removeEmptyFiles (runSession events).files = (runSession events).files := by
    unfold removeEmptyFiles
    rw [List.filter_eq_self]
    intro f hf
    simpa [List.length_eq_zero] using hnonempty f hf
  have hnames : List.Sorted (fun a b => a < b)
      ((runSession events).files.map (fun f => f.name)) := by
    rw [hfiles]
    exact List.Pairwise.sublist h2 (trace_names_sorted events hsortS hlen)
  have hnamests : ∀ n ∈ (runSession events).files.map (fun f => f.name),
      jsEndsWithTs n = true := by
    rw [hfiles]
    intro n hn
    obtain ⟨f, hf, rfl⟩ := List.mem_map.mp hn
    exact (h3 f hf).2
  have hnamesLe : List.Sorted (fun a b : String => ¬ b.data < a.data)
      ((runSession events).files.map (fun f => f.name)) :=
    hnames.imp (fun hab hc =>
      absurd (String.lt_iff_toList_lt.mpr hc) (lt_asymm hab))
  unfold sessionManifest arrivalOrderManifest generateFileList readdirSync
  rw [hremove]
  rw [List.Sorted.insertionSort_eq hnamesLe]
  rw [List.filter_eq_self.mpr (fun n hn => by
    rw [extname_of_jsEndsWithTs n (hnamests n hn)]
    decide)]

/-- Witness for C1's amended theorem: segments [3, 1, 2] arriving in
distinct seconds produce a manifest in exact arrival order. -/
theorem manifest_arrival_order_witness :
    sessionManifest (runSession
        [⟨"https://h/seg_3.ts", some [3], ⟨2024, 0, 1, 0, 0, 0, 0⟩⟩,
         ⟨"https://h/seg_1.ts", some [1], ⟨2024, 0, 1, 0, 0, 1, 0⟩⟩,
         ⟨"https://h/seg_2.ts", some [2], ⟨2024, 0, 1, 0, 0, 2, 0⟩⟩])
      = arrivalOrderManifest (runSession
        [⟨"https://h/seg_3.ts", some [3], ⟨2024, 0, 1, 0, 0, 0, 0⟩⟩,
         ⟨"https://h/seg_1.ts", some [1], ⟨2024, 0, 1, 0, 0, 1, 0⟩⟩,
         ⟨"https://h/seg_2.ts", some [2], ⟨2024, 0, 1, 0, 0, 2, 0⟩⟩]) :=
  manifest_lists_files_in_arrival_order _ (by decide) (by decide)
